import Mathlib

/-
Verification development for the rate-limiting core of the
python-web-scraper repository (src/rate_limiter.py).

Shallow embedding conventions:
- Python floats and timestamps are rationals (ℚ); machine time is passed
  explicitly as a `now : ℚ` parameter instead of calling a clock.  All clock
  reads inside one locked section before a sleep are idealised to the same
  instant, and `time.sleep(d)` is idealised as exact: the caller resumes at
  `now + d`.
- `collections.deque(maxlen=n)` is a `List ℚ` with an append operation that
  drops from the left when the bound is reached.
- Python exceptions (ZeroDivisionError from `x / 0.0`, IndexError from
  indexing an empty deque, ValueError from urlsplit, KeyError from a dict
  miss) are an explicit error monad `Except PyError`.  When an exception is
  raised the model returns only the error value; the claims settled here do
  not inspect the mutated state left behind by an exception.
- `dict` (insertion ordered) is an association list with in-place update.
-/

deriving instance DecidableEq for Except

namespace RateSpec

/-- Python exceptions that the modelled code can raise. -/
inductive PyError where
  | zeroDivisionError
  | indexError
  | valueError
  | keyError
deriving DecidableEq, Repr

/-- Embeds `RateLimitConfig` (src/rate_limiter.py lines 11-18): five fields
with the stated defaults.  Floats become ℚ, ints ℕ. -/
structure RateLimitConfig where
  requests_per_second : ℚ
  requests_per_minute : ℕ
  requests_per_hour : ℕ
  burst_size : ℕ
  min_delay : ℚ
deriving DecidableEq, Repr

/-- Default field values of `RateLimitConfig`
(`requests_per_second=1.0, requests_per_minute=60, requests_per_hour=1000,
burst_size=5, min_delay=0.1`). -/
def defaultRateLimitConfig : RateLimitConfig :=
  { requests_per_second := 1
    requests_per_minute := 60
    requests_per_hour := 1000
    burst_size := 5
    min_delay := 1/10 }

/-- Embeds the mutable state of a `RateLimiter` instance
(src/rate_limiter.py lines 30-48): token bucket, the two timestamp deques
and the three counters.  `max_tokens` is stored separately exactly as the
source does. -/
structure RateLimiter where
  config : RateLimitConfig
  tokens : ℚ
  max_tokens : ℚ
  last_refill : ℚ
  requests_minute : List ℚ
  requests_hour : List ℚ
  total_requests : ℕ
  total_wait_time : ℚ
  rejections : ℕ
deriving DecidableEq, Repr

/-- Python's built-in `max` on two floats (ties keep the first argument);
kept as an explicit conditional so closed terms reduce in the kernel. -/
def pymax (a b : ℚ) : ℚ := if a < b then b else a

/-- Python's built-in `min` on two floats (ties keep the first argument);
kept as an explicit conditional so closed terms reduce in the kernel. -/
def pymin (a b : ℚ) : ℚ := if a ≤ b then a else b

lemma pymax_eq_max (a b : ℚ) : pymax a b = max a b := by
  unfold pymax
  split_ifs with h
  · exact (max_eq_right h.le).symm
  · exact (max_eq_left (not_lt.mp h)).symm

lemma pymin_eq_min (a b : ℚ) : pymin a b = min a b := by
  unfold pymin
  split_ifs with h
  · exact (min_eq_left h).symm
  · exact (min_eq_right (not_le.mp h).le).symm

/-- Embeds `RateLimiter.__init__` at construction time `now`
(`self.tokens = burst_size`, `self.last_refill = time.time()`, empty
deques, zero counters). -/
def RateLimiter.init (cfg : RateLimitConfig) (now : ℚ) : RateLimiter :=
  { config := cfg
    tokens := cfg.burst_size
    max_tokens := cfg.burst_size
    last_refill := now
    requests_minute := []
    requests_hour := []
    total_requests := 0
    total_wait_time := 0
    rejections := 0 }

/-- Embeds `RateLimiter._refill_tokens` (lines 50-57):
`tokens = min(max_tokens, tokens + elapsed * requests_per_second)` and
`last_refill = now`. -/
def refill_tokens (s : RateLimiter) (now : ℚ) : RateLimiter :=
  let elapsed := now - s.last_refill
  let tokens_to_add := elapsed * s.config.requests_per_second
  { s with tokens := pymin s.max_tokens (s.tokens + tokens_to_add), last_refill := now }

/-- One deque-cleaning loop of `_clean_old_requests`: pop entries from the
left while `now - front > bound` (the source compares timedeltas strictly). -/
def cleanWindow (now bound : ℚ) : List ℚ → List ℚ
  | [] => []
  | t :: rest => if now - t > bound then cleanWindow now bound rest else t :: rest

/-- Embeds `RateLimiter._clean_old_requests` (lines 59-71): evict minute
entries older than 60 s and hour entries older than 3600 s. -/
def clean_old_requests (s : RateLimiter) (now : ℚ) : RateLimiter :=
  { s with requests_minute := cleanWindow now 60 s.requests_minute
           requests_hour := cleanWindow now 3600 s.requests_hour }

/-- Appending to a `deque(maxlen := m)`: the new element goes on the right
and the deque is trimmed to its bound from the left (with `m = 0` the deque
stays empty, as in CPython). -/
def dequeAppend (m : ℕ) (xs : List ℚ) (x : ℚ) : List ℚ :=
  (xs ++ [x]).drop (xs.length + 1 - m)

/-- The token-bucket branch of `_calculate_wait_time` (lines 81-85),
updating the running `wait_time` from its initial `0.0`: when `tokens < 1`
the deficit is divided by `requests_per_second`, which for Python floats
raises ZeroDivisionError when the rate is zero. -/
def tokenCheck (s : RateLimiter) : Except PyError ℚ :=
  if s.tokens < 1 then
    (if s.config.requests_per_second = 0 then
       Except.error PyError.zeroDivisionError
     else
       Except.ok (pymax 0 ((1 - s.tokens) / s.config.requests_per_second)))
  else Except.ok 0

/-- One window branch of `_calculate_wait_time` (lines 87-99), updating the
running `wait_time` `w`: when the window holds at least `cap` entries the
code indexes `deque[0]` (IndexError on an empty deque) and raises the wait
to `bound - age` when the oldest entry is younger than the bound. -/
def windowCheck (cap : ℕ) (window : List ℚ) (now bound w : ℚ) : Except PyError ℚ :=
  if cap ≤ window.length then
    match window with
    | [] => Except.error PyError.indexError
    | oldest :: _ =>
      Except.ok (if now - oldest < bound then pymax w (bound - (now - oldest)) else w)
  else Except.ok w

/-- Embeds `RateLimiter._calculate_wait_time` (lines 73-104): the running
`wait_time` starts at `0.0`, is raised by the token-bucket branch, the
minute-window branch (60 s), the hour-window branch (3600 s), and finally
by the `min_delay` floor. -/
def calculate_wait_time (s : RateLimiter) (now : ℚ) : Except PyError ℚ :=
  match tokenCheck s with
  | .error e => .error e
  | .ok w1 =>
    match windowCheck s.config.requests_per_minute s.requests_minute now 60 w1 with
    | .error e => .error e
    | .ok w2 =>
      match windowCheck s.config.requests_per_hour s.requests_hour now 3600 w2 with
      | .error e => .error e
      | .ok w3 => .ok (pymax w3 s.config.min_delay)

/-- Result of one `acquire` call: the returned boolean, the limiter state
after the call, and the time spent inside `time.sleep` (0 when no sleep
happened). -/
structure AcquireResult where
  granted : Bool
  state : RateLimiter
  slept : ℚ
deriving DecidableEq, Repr

/-- The token-consumption and bookkeeping tail of `acquire`
(lines 136-141): `tokens -= 1`, append `now` to both deques, increment
`total_requests`. -/
def recordRequest (s : RateLimiter) (now : ℚ) : RateLimiter :=
  { s with tokens := s.tokens - 1
           requests_minute := dequeAppend s.config.requests_per_minute s.requests_minute now
           requests_hour := dequeAppend s.config.requests_per_hour s.requests_hour now
           total_requests := s.total_requests + 1 }

/-- The state on which `acquire` computes its wait time: the entry state
after `_refill_tokens()` and `_clean_old_requests()` (lines 116-117) have
run at time `now`. -/
def decisionState (s : RateLimiter) (now : ℚ) : RateLimiter :=
  clean_old_requests (refill_tokens s now) now

/-- Embeds `RateLimiter.acquire` (lines 106-143).  The parameter keeps the
source's name `wait` (true = blocking).  The call refills, cleans, computes
the wait; on a positive wait it either rejects (non-blocking: bump
`rejections`, return `False`) or sleeps for exactly the computed duration,
refills again at `now + wait_time` and then records the admission. -/
def RateLimiter.acquire (s : RateLimiter) (now : ℚ) (wait : Bool) :
    Except PyError AcquireResult :=
  let s1 := decisionState s now
  match calculate_wait_time s1 now with
  | .error e => .error e
  | .ok wt =>
    if 0 < wt then
      if wait then
        let s2 := { s1 with total_wait_time := s1.total_wait_time + wt }
        let s3 := refill_tokens s2 (now + wt)
        .ok ⟨true, recordRequest s3 (now + wt), wt⟩
      else
        .ok ⟨false, { s1 with rejections := s1.rejections + 1 }, 0⟩
    else
      .ok ⟨true, recordRequest s1 now, 0⟩

/-- A sequence of immediately consecutive blocking `acquire` calls: each
call starts at the instant the previous one returned (its start time plus
the time it slept).  Returns the final state, the final clock and the list
of per-call results. -/
def acquireSeq (s : RateLimiter) (now : ℚ) :
    ℕ → Except PyError (RateLimiter × ℚ × List AcquireResult)
  | 0 => .ok (s, now, [])
  | n + 1 =>
    match RateLimiter.acquire s now true with
    | .error e => .error e
    | .ok r =>
      match acquireSeq r.state (now + r.slept) n with
      | .error e => .error e
      | .ok (s', t', rs) => .ok (s', t', r :: rs)

/-- Lock / suspension events performed by one `RateLimiter.acquire` call. -/
inductive LimEvent where
  | lockAcquire
  | lockRelease
  | sleep (d : ℚ)
deriving DecidableEq, Repr

/-- Whether an event is a `time.sleep`. -/
def LimEvent.isSleep : LimEvent → Bool
  | .sleep _ => true
  | _ => false

/-- The sequence of lock and sleep events of `RateLimiter.acquire`
(lines 115-143): the whole body, including the `time.sleep(wait_time)` call
on line 131, runs inside the `with self.lock:` block, so the trace is
lock-acquire, then possibly one sleep, then lock-release (an exception
unwinds the `with` block, which also releases the lock). -/
def acquireTrace (s : RateLimiter) (now : ℚ) (wait : Bool) : List LimEvent :=
  let s1 := decisionState s now
  match calculate_wait_time s1 now with
  | .error _ => [.lockAcquire, .lockRelease]
  | .ok wt =>
    if 0 < wt then
      if wait then [.lockAcquire, .sleep wt, .lockRelease]
      else [.lockAcquire, .lockRelease]
    else [.lockAcquire, .lockRelease]

/-- An event trace releases the lock before some sleep: there are positions
`i < j` with a lock-release at `i` and a sleep at `j`. -/
def releasedBeforeSleep (tr : List LimEvent) : Prop :=
  ∃ i j : Fin tr.length, i < j ∧ tr.get i = LimEvent.lockRelease ∧ (tr.get j).isSleep = true

instance (tr : List LimEvent) : Decidable (releasedBeforeSleep tr) := by
  unfold releasedBeforeSleep; infer_instance

/-
Model of `urllib.parse.urlparse(url).netloc`, used by
`DomainRateLimiter._get_domain` (src/rate_limiter.py lines 192-202).
Modelled from CPython's `urllib.parse.urlsplit` (3.10+ semantics): strip
leading C0-control/space characters, remove tab/CR/LF everywhere, split off
a scheme (`letter (letter|digit|+|-|.)* :`), and take a non-empty netloc
only when the remainder starts with `//`, up to the first `/`, `?` or `#`.
The mismatched-bracket check raises ValueError as in CPython; the
validation of a well-bracketed IPv6 host and the NFKC check of non-ASCII
netlocs are beyond scope and modelled as accepting.  URLs are `List Char`.
-/

/-- Leading-junk removal and unsafe-byte removal of `urlsplit`: drop leading
characters with code points ≤ 0x20, then delete every tab, CR and LF. -/
def sanitizeUrl (u : List Char) : List Char :=
  (u.dropWhile (fun c => c.toNat ≤ 32)).filter
    (fun c => ¬ (c = '\t' ∨ c = '\r' ∨ c = '\n'))

/-- Characters allowed in a URL scheme after its first letter. -/
def schemeChar (c : Char) : Bool :=
  c.isAlpha || c.isDigit || c = '+' || c = '-' || c = '.'

/-- Scheme removal of `urlsplit`: if the first `:` is at a position `i > 0`
and everything before it is a valid scheme (ASCII letter first, then scheme
characters), drop through the colon; otherwise leave the URL unchanged.
Only the remainder matters for the netloc, so the scheme itself is not
returned. -/
def splitScheme (u : List Char) : List Char :=
  let i := u.findIdx (· = ':')
  if i < u.length ∧ 0 < i ∧ (u.headD ' ').isAlpha ∧ (u.take i).all schemeChar then
    u.drop (i + 1)
  else u

/-- Netloc extraction after the leading `//`: everything up to the first
`/`, `?` or `#` (CPython's `_splitnetloc`). -/
def takeNetloc (u : List Char) : List Char :=
  u.takeWhile (fun c => ¬ (c = '/' ∨ c = '?' ∨ c = '#'))

/-- The netloc of a URL as computed by `urllib.parse.urlparse`, with
CPython's mismatched-IPv6-bracket ValueError. -/
def urlparse_netloc (u : List Char) : Except PyError (List Char) :=
  let rest := splitScheme (sanitizeUrl u)
  if rest.take 2 = ['/', '/'] then
    let nl := takeNetloc (rest.drop 2)
    if ('[' ∈ nl ∧ ']' ∉ nl) ∨ (']' ∈ nl ∧ '[' ∉ nl) then
      .error PyError.valueError
    else .ok nl
  else .ok []

/-- Embeds `DomainRateLimiter._get_domain` (lines 192-202):
`urlparse(url).netloc`. -/
def get_domain (url : List Char) : Except PyError (List Char) :=
  urlparse_netloc url

/-- Lookup in the registry's `limiters` dict, modelled on an association
list. -/
def lookupKey (k : List Char) : List (List Char × RateLimiter) → Option RateLimiter
  | [] => none
  | (k', v) :: rest => if k' = k then some v else lookupKey k rest

/-- Dict assignment `limiters[k] = v`: replace in place when the key is
present (insertion order preserved), append at the end otherwise. -/
def upsert (k : List Char) (v : RateLimiter) :
    List (List Char × RateLimiter) → List (List Char × RateLimiter)
  | [] => [(k, v)]
  | (k', v') :: rest => if k' = k then (k, v) :: rest else (k', v') :: upsert k v rest

/-- Embeds the state of `DomainRateLimiter` (lines 178-190): the default
config and the per-domain limiter dict. -/
structure DomainRateLimiter where
  default_config : RateLimitConfig
  limiters : List (List Char × RateLimiter)
deriving DecidableEq, Repr

/-- Embeds `DomainRateLimiter.acquire` (lines 204-221): derive the domain
with `_get_domain`, create this domain's limiter from the default config on
first use, then delegate to `RateLimiter.acquire`.  The `keyError` branch
is unreachable (the key was just inserted when absent). -/
def DomainRateLimiter.acquire (r : DomainRateLimiter) (url : List Char)
    (wait : Bool) (now : ℚ) : Except PyError (Bool × DomainRateLimiter) :=
  match get_domain url with
  | .error e => .error e
  | .ok domain =>
    let limiters1 :=
      match lookupKey domain r.limiters with
      | some _ => r.limiters
      | none => r.limiters ++ [(domain, RateLimiter.init r.default_config now)]
    match lookupKey domain limiters1 with
    | none => .error PyError.keyError
    | some lim =>
      match RateLimiter.acquire lim now wait with
      | .error e => .error e
      | .ok res => .ok (res.granted, { r with limiters := upsert domain res.state limiters1 })

/-
Spec-side definitions, stated from the specification's and the claims'
words, to be compared with the definitions embedded from the source.
-/

/-- Stated from claim C1's words: the token-deficit lower bound,
`(1 - tokens) / requestsPerSecond` when `tokens < 1`, else 0. -/
def tokenBound (s : RateLimiter) : ℚ :=
  if s.tokens < 1 then (1 - s.tokens) / s.config.requests_per_second else 0

/-- Stated from claim C1's words: the window-saturation lower bound,
`bound` minus the age of the oldest entry when the window is at capacity
and that age is below `bound`, else 0. -/
def windowBound (cap : ℕ) (window : List ℚ) (now bound : ℚ) : ℚ :=
  if window.length = cap ∧ now - window.headD 0 < bound then
    bound - (now - window.headD 0)
  else 0

/-- Stated from claim C1's words: the wait time as the maximum of the four
independent lower bounds (token deficit, minute window, hour window, and
the `minDelay` floor). -/
def specWaitTime (s : RateLimiter) (now : ℚ) : ℚ :=
  max (max (max (tokenBound s)
                (windowBound s.config.requests_per_minute s.requests_minute now 60))
           (windowBound s.config.requests_per_hour s.requests_hour now 3600))
      s.config.min_delay

/-
Helper lemmas.
-/

lemma tokenCheck_ok (s : RateLimiter) (w : ℚ)
    (hrps : 0 ≤ s.config.requests_per_second)
    (h : tokenCheck s = .ok w) : w = tokenBound s ∧ 0 ≤ w := by
  unfold tokenCheck at h
  unfold tokenBound
  by_cases ht : s.tokens < 1
  · rw [if_pos ht] at h
    by_cases hz : s.config.requests_per_second = 0
    · rw [if_pos hz] at h; cases h
    · rw [if_neg hz] at h
      injection h with h
      rw [pymax_eq_max] at h
      have hpos : 0 < (1 - s.tokens) / s.config.requests_per_second :=
        div_pos (by linarith) (lt_of_le_of_ne hrps (Ne.symm hz))
      rw [if_pos ht]
      constructor
      · rw [← h, max_eq_right hpos.le]
      · rw [← h]; exact le_max_left 0 _
  · rw [if_neg ht] at h
    injection h with h
    rw [if_neg ht]
    exact ⟨h.symm, h ▸ le_refl 0⟩

lemma windowCheck_ok (cap : ℕ) (win : List ℚ) (now bound w w' : ℚ)
    (hlen : win.length ≤ cap) (hw : 0 ≤ w)
    (h : windowCheck cap win now bound w = .ok w') :
    w' = max w (windowBound cap win now bound) := by
  unfold windowCheck at h
  unfold windowBound
  by_cases hc : cap ≤ win.length
  · have hlc : win.length = cap := le_antisymm hlen hc
    rw [if_pos hc] at h
    cases win with
    | nil => cases h
    | cons t rest =>
      injection h with h
      subst h
      simp only [List.headD_cons, hlc, true_and]
      by_cases ha : now - t < bound
      · rw [if_pos ha, if_pos ha, pymax_eq_max]
      · rw [if_neg ha, if_neg ha, max_eq_left hw]
  · rw [if_neg hc] at h
    injection h with h
    subst h
    have hcond : ¬ (win.length = cap ∧ now - win.headD 0 < bound) := by
      intro hx
      exact hc (hx.1 ▸ le_refl _)
    rw [if_neg hcond, max_eq_left hw]

/-
Claim C1.
-/

/-- Claim C1: for every limiter state (with a non-negative rate and windows
within their capacity bounds), the wait time computed by
`_calculate_wait_time`, whenever it returns at all, equals the maximum of
the four independent lower bounds: token deficit (when `tokens < 1`),
minute-window saturation, hour-window saturation, and the `min_delay`
floor. -/
theorem wait_time_is_max_of_four_bounds (s : RateLimiter) (now w : ℚ)
    (hrps : 0 ≤ s.config.requests_per_second)
    (hm : s.requests_minute.length ≤ s.config.requests_per_minute)
    (hh : s.requests_hour.length ≤ s.config.requests_per_hour)
    (hok : calculate_wait_time s now = .ok w) :
    w = specWaitTime s now := by
  unfold calculate_wait_time at hok
  split at hok
  · cases hok
  next w1 h1 =>
    split at hok
    · cases hok
    next w2 h2 =>
      split at hok
      · cases hok
      next w3 h3 =>
        injection hok with hok
        obtain ⟨hw1, hw1pos⟩ := tokenCheck_ok s w1 hrps h1
        have hw2 := windowCheck_ok _ _ _ _ _ _ hm hw1pos h2
        have hw2pos : 0 ≤ w2 := hw2 ▸ le_max_of_le_left hw1pos
        have hw3 := windowCheck_ok _ _ _ _ _ _ hh hw2pos h3
        rw [← hok, pymax_eq_max]
        unfold specWaitTime
        rw [hw3, hw2, hw1]

/-- Witness for C1 at a freshly constructed default limiter: the computed
wait is `0.1` and the maximum of the four bounds is also `0.1`. -/
theorem wait_time_is_max_of_four_bounds_witness :
    calculate_wait_time (RateLimiter.init defaultRateLimitConfig 0) 0 = .ok (1/10) ∧
    (1/10 : ℚ) = specWaitTime (RateLimiter.init defaultRateLimitConfig 0) 0 := by
  have hc : calculate_wait_time (RateLimiter.init defaultRateLimitConfig 0) 0 = .ok (1/10) := by
    norm_num [calculate_wait_time, tokenCheck, windowCheck, RateLimiter.init,
      defaultRateLimitConfig, pymax]
  refine ⟨hc, wait_time_is_max_of_four_bounds (RateLimiter.init defaultRateLimitConfig 0) 0
    (1/10) ?_ ?_ ?_ hc⟩
  · norm_num [RateLimiter.init, defaultRateLimitConfig]
  · simp [RateLimiter.init]
  · simp [RateLimiter.init]

/-
List lemmas about the window operations.
-/

lemma cleanWindow_sublist (now bound : ℚ) (xs : List ℚ) :
    List.Sublist (cleanWindow now bound xs) xs := by
  induction xs with
  | nil => simp [cleanWindow]
  | cons t rest ih =>
    rw [cleanWindow]
    split_ifs with h
    · exact ih.trans (List.sublist_cons_self _ _)
    · exact List.Sublist.refl _

lemma cleanWindow_mem_age (now bound : ℚ) (xs : List ℚ)
    (hp : xs.Pairwise (· ≤ ·)) :
    ∀ t ∈ cleanWindow now bound xs, now - t ≤ bound := by
  induction xs with
  | nil => simp [cleanWindow]
  | cons a rest ih =>
    rw [cleanWindow]
    split_ifs with h
    · exact ih (List.Pairwise.of_cons hp)
    · intro t ht
      rcases List.mem_cons.mp ht with rfl | ht'
      · exact not_lt.mp h
      · have hat : a ≤ t := (List.pairwise_cons.mp hp).1 t ht'
        have hna : now - a ≤ bound := not_lt.mp h
        linarith

lemma dequeAppend_length_le (m : ℕ) (xs : List ℚ) (x : ℚ) (hlen : xs.length ≤ m) :
    (dequeAppend m xs x).length ≤ m := by
  unfold dequeAppend
  rw [List.length_drop, List.length_append]
  simp only [List.length_singleton]
  omega

lemma dequeAppend_pairwise (m : ℕ) (xs : List ℚ) (x : ℚ)
    (hp : xs.Pairwise (· ≤ ·)) (hx : ∀ a ∈ xs, a ≤ x) :
    (dequeAppend m xs x).Pairwise (· ≤ ·) := by
  unfold dequeAppend
  refine List.Pairwise.sublist (List.drop_sublist _ _) ?_
  rw [List.pairwise_append]
  refine ⟨hp, List.pairwise_singleton _ _, ?_⟩
  intro a ha b hb
  rw [List.mem_singleton] at hb
  subst hb
  exact hx a ha

/-
Claim C2 (corrected).
-/

/-- Counterexample input for C2: a limiter whose token bucket is half
depleted and whose last refill lies a quarter second in the past at call
time. -/
def halfTokenState : RateLimiter :=
  { RateLimiter.init defaultRateLimitConfig 0 with tokens := 1/2 }

/-- Counterexample to C2 as stated: at `halfTokenState` the non-blocking
call computes a positive wait and returns `False`, yet `tokens` is mutated
from `1/2` to `3/4` by the refill step that precedes the decision — the
call does mutate limiter state other than `rejections`. -/
theorem nonblocking_reject_mutates_tokens :
    halfTokenState.tokens = 1/2 ∧
    (RateLimiter.acquire halfTokenState (1/4) false).map
      (fun r => (r.granted, r.state.tokens, r.state.rejections, r.slept)) =
      .ok (false, 3/4, 1, 0) := by
  constructor
  · norm_num [halfTokenState, RateLimiter.init, defaultRateLimitConfig]
  · have h1 : decisionState halfTokenState (1/4) =
        { halfTokenState with tokens := 3/4, last_refill := 1/4 } := by
      norm_num [decisionState, clean_old_requests, refill_tokens, cleanWindow,
        halfTokenState, RateLimiter.init, defaultRateLimitConfig, pymin]
    have h2 : calculate_wait_time
        { halfTokenState with tokens := 3/4, last_refill := 1/4 } (1/4) = .ok (1/4) := by
      norm_num [calculate_wait_time, tokenCheck, windowCheck, halfTokenState,
        RateLimiter.init, defaultRateLimitConfig, pymax]
    unfold RateLimiter.acquire
    rw [h1]
    simp only [h2]
    norm_num [halfTokenState, RateLimiter.init, defaultRateLimitConfig, Except.map]

/-- Claim C2 as amended: when the wait computed at the decision state is
positive, the non-blocking call returns `False` without suspending and
its final state is exactly the decision state (the entry state after the
refill and eviction steps, which may change `tokens`, `last_refill` and the
windows) with `rejections` incremented by one; no token is consumed and
nothing is appended to the windows. -/
theorem nonblocking_reject_state (s : RateLimiter) (now wt : ℚ)
    (h : calculate_wait_time (decisionState s now) now = .ok wt)
    (hpos : 0 < wt) :
    RateLimiter.acquire s now false =
      .ok ⟨false, { decisionState s now with rejections := s.rejections + 1 }, 0⟩ := by
  unfold RateLimiter.acquire
  simp only [h, if_pos hpos]
  have hrej : (decisionState s now).rejections = s.rejections := by
    simp [decisionState, clean_old_requests, refill_tokens]
  simp [hrej]

/-- Witness for the amended C2 at a fresh default limiter: the computed
wait is the `0.1` floor, and the rejected call's state is the decision
state with one rejection. -/
theorem nonblocking_reject_state_witness :
    RateLimiter.acquire (RateLimiter.init defaultRateLimitConfig 0) 0 false =
      .ok ⟨false,
           { decisionState (RateLimiter.init defaultRateLimitConfig 0) 0 with
             rejections := (RateLimiter.init defaultRateLimitConfig 0).rejections + 1 },
           0⟩ := by
  refine nonblocking_reject_state (RateLimiter.init defaultRateLimitConfig 0) 0 (1/10) ?_ ?_
  · norm_num [decisionState, clean_old_requests, refill_tokens, cleanWindow,
      calculate_wait_time, tokenCheck, windowCheck, RateLimiter.init,
      defaultRateLimitConfig, pymax, pymin]
  · norm_num

/-
Claim C5.
-/

/-- Claim C5: from any state whose windows are within capacity, sorted
ascending and timestamped in the past, the decision state (on which
`acquire` computes its wait) has windows within capacity, still sorted, and
every surviving entry — the oldest in particular — at most 60 s / 3600 s
old; and whatever `acquire` then returns, the final windows are again
within capacity and sorted. -/
theorem windows_invariant_at_decision (s : RateLimiter) (now : ℚ) (wait : Bool)
    (hm : s.requests_minute.length ≤ s.config.requests_per_minute)
    (hh : s.requests_hour.length ≤ s.config.requests_per_hour)
    (hpm : s.requests_minute.Pairwise (· ≤ ·))
    (hph : s.requests_hour.Pairwise (· ≤ ·))
    (hbm : ∀ t ∈ s.requests_minute, t ≤ now)
    (hbh : ∀ t ∈ s.requests_hour, t ≤ now) :
    ((decisionState s now).requests_minute.length ≤ s.config.requests_per_minute ∧
     (decisionState s now).requests_minute.Pairwise (· ≤ ·) ∧
     (∀ t ∈ (decisionState s now).requests_minute, now - t ≤ 60) ∧
     (decisionState s now).requests_hour.length ≤ s.config.requests_per_hour ∧
     (decisionState s now).requests_hour.Pairwise (· ≤ ·) ∧
     (∀ t ∈ (decisionState s now).requests_hour, now - t ≤ 3600)) ∧
    (∀ res, RateLimiter.acquire s now wait = .ok res →
      res.state.requests_minute.length ≤ s.config.requests_per_minute ∧
      res.state.requests_minute.Pairwise (· ≤ ·) ∧
      res.state.requests_hour.length ≤ s.config.requests_per_hour ∧
      res.state.requests_hour.Pairwise (· ≤ ·)) := by
  have hsm : (decisionState s now).requests_minute = cleanWindow now 60 s.requests_minute := by
    simp [decisionState, clean_old_requests, refill_tokens]
  have hsh : (decisionState s now).requests_hour = cleanWindow now 3600 s.requests_hour := by
    simp [decisionState, clean_old_requests, refill_tokens]
  have hcfg : (decisionState s now).config = s.config := by
    simp [decisionState, clean_old_requests, refill_tokens]
  have hlm : (decisionState s now).requests_minute.length ≤ s.config.requests_per_minute :=
    hsm ▸ le_trans (cleanWindow_sublist now 60 s.requests_minute).length_le hm
  have hlh : (decisionState s now).requests_hour.length ≤ s.config.requests_per_hour :=
    hsh ▸ le_trans (cleanWindow_sublist now 3600 s.requests_hour).length_le hh
  have hpm1 : (decisionState s now).requests_minute.Pairwise (· ≤ ·) :=
    hsm ▸ hpm.sublist (cleanWindow_sublist now 60 s.requests_minute)
  have hph1 : (decisionState s now).requests_hour.Pairwise (· ≤ ·) :=
    hsh ▸ hph.sublist (cleanWindow_sublist now 3600 s.requests_hour)
  have hbm1 : ∀ t ∈ (decisionState s now).requests_minute, t ≤ now := by
    rw [hsm]
    intro t ht
    exact hbm t ((cleanWindow_sublist now 60 s.requests_minute).subset ht)
  have hbh1 : ∀ t ∈ (decisionState s now).requests_hour, t ≤ now := by
    rw [hsh]
    intro t ht
    exact hbh t ((cleanWindow_sublist now 3600 s.requests_hour).subset ht)
  refine ⟨⟨hlm, hpm1, ?_, hlh, hph1, ?_⟩, ?_⟩
  · rw [hsm]; exact cleanWindow_mem_age now 60 s.requests_minute hpm
  · rw [hsh]; exact cleanWindow_mem_age now 3600 s.requests_hour hph
  · intro res hres
    unfold RateLimiter.acquire at hres
    simp only [] at hres
    split at hres
    · cases hres
    next wt hwt =>
      split at hres
      · split at hres
        · injection hres with hres
          subst hres
          simp only [recordRequest, refill_tokens, hcfg]
          have hnw : now ≤ now + wt := by linarith [show 0 < wt by assumption]
          exact ⟨dequeAppend_length_le _ _ _ hlm,
                 dequeAppend_pairwise _ _ _ hpm1 (fun a ha => le_trans (hbm1 a ha) hnw),
                 dequeAppend_length_le _ _ _ hlh,
                 dequeAppend_pairwise _ _ _ hph1 (fun a ha => le_trans (hbh1 a ha) hnw)⟩
        · injection hres with hres
          subst hres
          exact ⟨hlm, hpm1, hlh, hph1⟩
      · injection hres with hres
        subst hres
        simp only [recordRequest, hcfg]
        exact ⟨dequeAppend_length_le _ _ _ hlm,
               dequeAppend_pairwise _ _ _ hpm1 hbm1,
               dequeAppend_length_le _ _ _ hlh,
               dequeAppend_pairwise _ _ _ hph1 hbh1⟩

/-- Witness for C5 at a fresh default limiter (trivially sorted, empty,
in-capacity windows): the decision-state windows are within capacity,
sorted ascending and contain no entry older than its window. -/
theorem windows_invariant_at_decision_witness :
    (decisionState (RateLimiter.init defaultRateLimitConfig 0) 0).requests_minute.length ≤
        (RateLimiter.init defaultRateLimitConfig 0).config.requests_per_minute ∧
    (decisionState (RateLimiter.init defaultRateLimitConfig 0) 0).requests_minute.Pairwise
        (· ≤ ·) ∧
    (∀ t ∈ (decisionState (RateLimiter.init defaultRateLimitConfig 0) 0).requests_minute,
        (0:ℚ) - t ≤ 60) ∧
    (decisionState (RateLimiter.init defaultRateLimitConfig 0) 0).requests_hour.length ≤
        (RateLimiter.init defaultRateLimitConfig 0).config.requests_per_hour ∧
    (decisionState (RateLimiter.init defaultRateLimitConfig 0) 0).requests_hour.Pairwise
        (· ≤ ·) ∧
    (∀ t ∈ (decisionState (RateLimiter.init defaultRateLimitConfig 0) 0).requests_hour,
        (0:ℚ) - t ≤ 3600) :=
  (windows_invariant_at_decision (RateLimiter.init defaultRateLimitConfig 0) 0 true
    (by simp [RateLimiter.init]) (by simp [RateLimiter.init])
    (by simp [RateLimiter.init]) (by simp [RateLimiter.init])
    (by simp [RateLimiter.init]) (by simp [RateLimiter.init])).1

/-
Claim C6 (corrected).
-/

/-- Counterexample input for C6: a limiter configured with
`requests_per_second = 0` whose bucket is empty. -/
def zeroRateState : RateLimiter :=
  { RateLimiter.init ⟨0, 60, 1000, 5, 1/10⟩ 0 with tokens := 0 }

/-- Counterexample to C6 as stated: with `requests_per_second = 0` and
`tokens < 1` the admission path does raise — the token-deficit branch
divides by zero (Python ZeroDivisionError), it does not yield an unbounded
wait. -/
theorem zero_rate_acquire_raises_concrete :
    zeroRateState.config.requests_per_second = 0 ∧ zeroRateState.tokens < 1 ∧
    RateLimiter.acquire zeroRateState 0 true = .error PyError.zeroDivisionError := by
  refine ⟨by norm_num [zeroRateState, RateLimiter.init], by norm_num [zeroRateState, RateLimiter.init], ?_⟩
  have h1 : decisionState zeroRateState 0 = zeroRateState := by
    norm_num [decisionState, clean_old_requests, refill_tokens, cleanWindow,
      zeroRateState, RateLimiter.init, pymin]
  have h2 : calculate_wait_time zeroRateState 0 = .error PyError.zeroDivisionError := by
    norm_num [calculate_wait_time, tokenCheck, zeroRateState, RateLimiter.init]
  unfold RateLimiter.acquire
  rw [h1]
  simp only [h2]

/-- Claim C6 as amended: for `requests_per_second = 0` and `tokens < 1` the
admission path raises ZeroDivisionError from the token-deficit branch — the
exception propagates out of `acquire` for both blocking and non-blocking
calls — rather than producing an unbounded wait time. -/
theorem zero_rate_token_deficit_raises (s : RateLimiter) (now : ℚ) (wait : Bool)
    (hz : s.config.requests_per_second = 0) (ht : s.tokens < 1) :
    RateLimiter.acquire s now wait = .error PyError.zeroDivisionError := by
  have hcfg : (decisionState s now).config = s.config := by
    simp [decisionState, clean_old_requests, refill_tokens]
  have htok : (decisionState s now).tokens < 1 := by
    have hdt : (decisionState s now).tokens =
        pymin s.max_tokens (s.tokens + (now - s.last_refill) * s.config.requests_per_second) := by
      simp [decisionState, clean_old_requests, refill_tokens]
    rw [hdt, hz, mul_zero, add_zero, pymin_eq_min]
    exact lt_of_le_of_lt (min_le_right _ _) ht
  have htc : tokenCheck (decisionState s now) = .error PyError.zeroDivisionError := by
    unfold tokenCheck
    rw [if_pos htok, hcfg, if_pos hz]
  have hcalc : calculate_wait_time (decisionState s now) now =
      .error PyError.zeroDivisionError := by
    unfold calculate_wait_time
    rw [htc]
  unfold RateLimiter.acquire
  simp only [hcalc]

/-- Witness for the amended C6 at a zero-rate limiter with a half token,
called non-blocking at time 3. -/
theorem zero_rate_token_deficit_raises_witness :
    RateLimiter.acquire { RateLimiter.init ⟨0, 60, 1000, 5, 1/10⟩ 0 with tokens := 1/2 } 3 false =
      .error PyError.zeroDivisionError :=
  zero_rate_token_deficit_raises _ 3 false (by norm_num [RateLimiter.init])
    (by norm_num [RateLimiter.init])

/-
Claim C9.
-/

/-- Claim C9: with `requests_per_minute = 0` (allowed by the config
invariant) the minute deque has capacity zero, so appends keep it empty;
and from any reachable such state (empty minute window, at least one token
available after refill, as holds from construction on since no admission is
ever recorded), every `acquire` call — blocking or not — raises IndexError:
the saturation check `0 ≥ 0` passes vacuously and `deque[0]` indexes an
empty deque. -/
theorem zero_minute_capacity_acquire_raises (s : RateLimiter) (now : ℚ) (wait : Bool)
    (hcap : s.config.requests_per_minute = 0)
    (hwin : s.requests_minute = [])
    (htok : 1 ≤ s.tokens) (hmax : 1 ≤ s.max_tokens)
    (hrps : 0 ≤ s.config.requests_per_second) (hlr : s.last_refill ≤ now) :
    RateLimiter.acquire s now wait = .error PyError.indexError ∧
    (∀ (xs : List ℚ) (x : ℚ), dequeAppend 0 xs x = []) := by
  constructor
  · have hcfg : (decisionState s now).config = s.config := by
      simp [decisionState, clean_old_requests, refill_tokens]
    have htok1 : 1 ≤ (decisionState s now).tokens := by
      have hdt : (decisionState s now).tokens =
          pymin s.max_tokens (s.tokens + (now - s.last_refill) * s.config.requests_per_second) := by
        simp [decisionState, clean_old_requests, refill_tokens]
      rw [hdt, pymin_eq_min]
      refine le_min hmax ?_
      have : 0 ≤ (now - s.last_refill) * s.config.requests_per_second :=
        mul_nonneg (sub_nonneg.mpr hlr) hrps
      linarith
    have htc : tokenCheck (decisionState s now) = .ok 0 := by
      unfold tokenCheck
      rw [if_neg (not_lt.mpr htok1)]
    have hwin1 : (decisionState s now).requests_minute = [] := by
      simp [decisionState, clean_old_requests, refill_tokens, hwin, cleanWindow]
    have hwc : windowCheck (decisionState s now).config.requests_per_minute
        (decisionState s now).requests_minute now 60 0 = .error PyError.indexError := by
      unfold windowCheck
      rw [hwin1, hcfg, hcap]
      simp
    have hcalc : calculate_wait_time (decisionState s now) now =
        .error PyError.indexError := by
      unfold calculate_wait_time
      rw [htc]
      simp only [hwc]
    unfold RateLimiter.acquire
    simp only [hcalc]
  · intro xs x
    unfold dequeAppend
    refine List.drop_eq_nil_of_le ?_
    simp

/-- Witness for C9: a freshly constructed limiter with
`requests_per_minute = 0` raises IndexError on its first blocking acquire. -/
theorem zero_minute_capacity_acquire_raises_witness :
    RateLimiter.acquire (RateLimiter.init ⟨1, 0, 1000, 5, 1/10⟩ 0) 2 true =
      .error PyError.indexError ∧
    (∀ (xs : List ℚ) (x : ℚ), dequeAppend 0 xs x = []) :=
  zero_minute_capacity_acquire_raises (RateLimiter.init ⟨1, 0, 1000, 5, 1/10⟩ 0) 2 true
    (by norm_num [RateLimiter.init]) (by norm_num [RateLimiter.init])
    (by norm_num [RateLimiter.init]) (by norm_num [RateLimiter.init])
    (by norm_num [RateLimiter.init]) (by norm_num [RateLimiter.init])

/-
Claim C3 (corrected).
-/

lemma not_releasedBeforeSleep_triple (w : ℚ) :
    ¬ releasedBeforeSleep [LimEvent.lockAcquire, LimEvent.sleep w, LimEvent.lockRelease] := by
  rintro ⟨i, j, hij, hi, hj⟩
  fin_cases i <;> fin_cases j <;> simp_all [LimEvent.isSleep]

/-- Counterexample to C3 as stated: the first blocking acquire on a fresh
default limiter computes the positive wait `0.1` and suspends, yet its
event trace releases the lock only after `time.sleep` returns — no
lock-release precedes the sleep, so the caller sleeps holding the lock. -/
theorem blocking_sleep_holds_lock_concrete :
    acquireTrace (RateLimiter.init defaultRateLimitConfig 0) 0 true =
      [LimEvent.lockAcquire, LimEvent.sleep (1/10), LimEvent.lockRelease] ∧
    ¬ releasedBeforeSleep (acquireTrace (RateLimiter.init defaultRateLimitConfig 0) 0 true) := by
  have h1 : decisionState (RateLimiter.init defaultRateLimitConfig 0) 0 =
      RateLimiter.init defaultRateLimitConfig 0 := by
    norm_num [decisionState, clean_old_requests, refill_tokens, cleanWindow,
      RateLimiter.init, defaultRateLimitConfig, pymin]
  have h2 : calculate_wait_time (RateLimiter.init defaultRateLimitConfig 0) 0 = .ok (1/10) := by
    norm_num [calculate_wait_time, tokenCheck, windowCheck, RateLimiter.init,
      defaultRateLimitConfig, pymax]
  have htr : acquireTrace (RateLimiter.init defaultRateLimitConfig 0) 0 true =
      [LimEvent.lockAcquire, LimEvent.sleep (1/10), LimEvent.lockRelease] := by
    unfold acquireTrace
    rw [h1]
    simp only [h2]
    norm_num
  exact ⟨htr, htr ▸ not_releasedBeforeSleep_triple (1/10)⟩

/-- Claim C3 as amended: for every blocking acquire whose computed wait is
positive, the `time.sleep` happens inside the `with self.lock:` block — the
event trace is lock-acquire, sleep, lock-release, with no lock-release
before the sleep — so the lock is held for the entire suspension and
concurrent callers on the same limiter are blocked behind the sleeping
caller. -/
theorem blocking_sleep_holds_lock (s : RateLimiter) (now wt : ℚ)
    (h : calculate_wait_time (decisionState s now) now = .ok wt) (hpos : 0 < wt) :
    acquireTrace s now true = [LimEvent.lockAcquire, LimEvent.sleep wt, LimEvent.lockRelease] ∧
    ¬ releasedBeforeSleep (acquireTrace s now true) := by
  have htr : acquireTrace s now true =
      [LimEvent.lockAcquire, LimEvent.sleep wt, LimEvent.lockRelease] := by
    unfold acquireTrace
    simp only [h, if_pos hpos, if_true]
  exact ⟨htr, htr ▸ not_releasedBeforeSleep_triple wt⟩

/-- Witness for the amended C3 at a fresh default limiter, whose first
blocking call computes the positive wait `0.1`. -/
theorem blocking_sleep_holds_lock_witness :
    acquireTrace { RateLimiter.init defaultRateLimitConfig 0 with tokens := 3 } 0 true =
      [LimEvent.lockAcquire, LimEvent.sleep (1/10), LimEvent.lockRelease] ∧
    ¬ releasedBeforeSleep
        (acquireTrace { RateLimiter.init defaultRateLimitConfig 0 with tokens := 3 } 0 true) := by
  refine blocking_sleep_holds_lock _ 0 (1/10) ?_ (by norm_num)
  norm_num [decisionState, clean_old_requests, refill_tokens, cleanWindow,
    calculate_wait_time, tokenCheck, windowCheck, RateLimiter.init,
    defaultRateLimitConfig, pymax, pymin]

/-
Claim C8 (corrected).
-/

lemma pymax_zero_of_nonneg (md : ℚ) (h : 0 ≤ md) : pymax 0 md = md := by
  rw [pymax_eq_max]
  exact max_eq_right h

lemma dequeAppend_length_le_succ (m : ℕ) (xs : List ℚ) (x : ℚ) :
    (dequeAppend m xs x).length ≤ xs.length + 1 := by
  unfold dequeAppend
  rw [List.length_drop, List.length_append]
  simp only [List.length_singleton]
  omega

/-- One blocking acquire from a state with at least one token, room in both
windows, a non-negative rate and a non-negative delay floor: the call is
granted after waiting exactly the `min_delay` floor, loses at most one
token, and grows each window by at most one entry. -/
lemma burst_step (s : RateLimiter) (now : ℚ)
    (hrps : 0 ≤ s.config.requests_per_second)
    (hmd : 0 ≤ s.config.min_delay)
    (htok : 1 ≤ s.tokens)
    (htmax : s.tokens ≤ s.max_tokens)
    (hlr : s.last_refill ≤ now)
    (hm : s.requests_minute.length < s.config.requests_per_minute)
    (hh : s.requests_hour.length < s.config.requests_per_hour) :
    ∃ s', RateLimiter.acquire s now true = .ok ⟨true, s', s.config.min_delay⟩ ∧
      s'.config = s.config ∧ s'.max_tokens = s.max_tokens ∧
      s.tokens - 1 ≤ s'.tokens ∧ s'.tokens ≤ s'.max_tokens ∧
      s'.last_refill = now + s.config.min_delay ∧
      s'.requests_minute.length ≤ s.requests_minute.length + 1 ∧
      s'.requests_hour.length ≤ s.requests_hour.length + 1 := by
  have hcfg : (decisionState s now).config = s.config := rfl
  have hmaxS : (decisionState s now).max_tokens = s.max_tokens := rfl
  have htokS : s.tokens ≤ (decisionState s now).tokens ∧
      (decisionState s now).tokens ≤ s.max_tokens := by
    have hshow : (decisionState s now).tokens = pymin s.max_tokens
        (s.tokens + (now - s.last_refill) * s.config.requests_per_second) := rfl
    rw [hshow, pymin_eq_min]
    have hnn : 0 ≤ (now - s.last_refill) * s.config.requests_per_second :=
      mul_nonneg (sub_nonneg.mpr hlr) hrps
    exact ⟨le_min htmax (by linarith), min_le_left _ _⟩
  have h1S : 1 ≤ (decisionState s now).tokens := le_trans htok htokS.1
  have htc : tokenCheck (decisionState s now) = .ok 0 := by
    unfold tokenCheck
    rw [if_neg (not_lt.mpr h1S)]
  have hmS : (decisionState s now).requests_minute.length < s.config.requests_per_minute := by
    have : (decisionState s now).requests_minute = cleanWindow now 60 s.requests_minute := rfl
    rw [this]
    exact lt_of_le_of_lt (cleanWindow_sublist now 60 s.requests_minute).length_le hm
  have hhS : (decisionState s now).requests_hour.length < s.config.requests_per_hour := by
    have : (decisionState s now).requests_hour = cleanWindow now 3600 s.requests_hour := rfl
    rw [this]
    exact lt_of_le_of_lt (cleanWindow_sublist now 3600 s.requests_hour).length_le hh
  have hwm : windowCheck (decisionState s now).config.requests_per_minute
      (decisionState s now).requests_minute now 60 0 = .ok 0 := by
    unfold windowCheck
    rw [hcfg, if_neg (not_le.mpr hmS)]
  have hwh : windowCheck (decisionState s now).config.requests_per_hour
      (decisionState s now).requests_hour now 3600 0 = .ok 0 := by
    unfold windowCheck
    rw [hcfg, if_neg (not_le.mpr hhS)]
  have hcalc : calculate_wait_time (decisionState s now) now = .ok s.config.min_delay := by
    unfold calculate_wait_time
    rw [htc]
    simp only [hwm, hwh]
    rw [show (decisionState s now).config.min_delay = s.config.min_delay from rfl,
      pymax_zero_of_nonneg _ hmd]
  unfold RateLimiter.acquire
  simp only [hcalc]
  by_cases hmd0 : 0 < s.config.min_delay
  · rw [if_pos hmd0]
    simp only [if_true]
    have hTshow : (refill_tokens { decisionState s now with
        total_wait_time := (decisionState s now).total_wait_time + s.config.min_delay }
        (now + s.config.min_delay)).tokens =
        pymin s.max_tokens ((decisionState s now).tokens +
          (now + s.config.min_delay - now) * s.config.requests_per_second) := rfl
    have hnn : 0 ≤ (now + s.config.min_delay - now) * s.config.requests_per_second := by
      have hd : (0:ℚ) ≤ now + s.config.min_delay - now := by linarith
      exact mul_nonneg hd hrps
    have hTlb : s.tokens ≤ (refill_tokens { decisionState s now with
        total_wait_time := (decisionState s now).total_wait_time + s.config.min_delay }
        (now + s.config.min_delay)).tokens := by
      rw [hTshow, pymin_eq_min]
      exact le_min htmax (by linarith [htokS.1])
    have hTub : (refill_tokens { decisionState s now with
        total_wait_time := (decisionState s now).total_wait_time + s.config.min_delay }
        (now + s.config.min_delay)).tokens ≤ s.max_tokens := by
      rw [hTshow, pymin_eq_min]
      exact min_le_left _ _
    refine ⟨_, rfl, rfl, rfl, ?_, ?_, rfl, ?_, ?_⟩
    · show s.tokens - 1 ≤
        (refill_tokens { decisionState s now with
          total_wait_time := (decisionState s now).total_wait_time + s.config.min_delay }
          (now + s.config.min_delay)).tokens - 1
      linarith
    · show (refill_tokens { decisionState s now with
          total_wait_time := (decisionState s now).total_wait_time + s.config.min_delay }
          (now + s.config.min_delay)).tokens - 1 ≤ s.max_tokens
      linarith
    · exact le_trans (dequeAppend_length_le_succ _ _ _)
        (Nat.add_le_add_right (cleanWindow_sublist now 60 s.requests_minute).length_le 1)
    · exact le_trans (dequeAppend_length_le_succ _ _ _)
        (Nat.add_le_add_right (cleanWindow_sublist now 3600 s.requests_hour).length_le 1)
  · have hmdz : s.config.min_delay = 0 := le_antisymm (not_lt.mp hmd0) hmd
    rw [if_neg hmd0]
    refine ⟨recordRequest (decisionState s now) now, by rw [hmdz], rfl, rfl, ?_, ?_, ?_, ?_, ?_⟩
    · show s.tokens - 1 ≤ (decisionState s now).tokens - 1
      linarith [htokS.1]
    · show (decisionState s now).tokens - 1 ≤ s.max_tokens
      linarith [htokS.2]
    · show (decisionState s now).last_refill = now + s.config.min_delay
      rw [hmdz, add_zero]
      rfl
    · exact le_trans (dequeAppend_length_le_succ _ _ _)
        (Nat.add_le_add_right (cleanWindow_sublist now 60 s.requests_minute).length_le 1)
    · exact le_trans (dequeAppend_length_le_succ _ _ _)
        (Nat.add_le_add_right (cleanWindow_sublist now 3600 s.requests_hour).length_le 1)

lemma acquireSeq_zero (s : RateLimiter) (now : ℚ) :
    acquireSeq s now 0 = .ok (s, now, []) := rfl

lemma acquireSeq_succ (s : RateLimiter) (now : ℚ) (n : ℕ) :
    acquireSeq s now (n + 1) =
      match RateLimiter.acquire s now true with
      | .error e => .error e
      | .ok r =>
        match acquireSeq r.state (now + r.slept) n with
        | .error e => .error e
        | .ok (s', t', rs) => .ok (s', t', r :: rs) := rfl

/-- Burst absorption, generalised for induction: from a state with at least
`n` tokens, a bucket within its cap, and `n` slots of room in both windows,
`n` immediately consecutive blocking calls all succeed, each waiting
exactly the `min_delay` floor. -/
lemma acquireSeq_burst (cfg : RateLimitConfig)
    (hrps : 0 ≤ cfg.requests_per_second) (hmd : 0 ≤ cfg.min_delay) :
    ∀ (n : ℕ) (s : RateLimiter) (now : ℚ),
      s.config = cfg →
      (n : ℚ) ≤ s.tokens → s.tokens ≤ s.max_tokens → s.last_refill ≤ now →
      s.requests_minute.length + n ≤ cfg.requests_per_minute →
      s.requests_hour.length + n ≤ cfg.requests_per_hour →
      ∃ s' t' rs, acquireSeq s now n = .ok (s', t', rs) ∧ rs.length = n ∧
        ∀ r ∈ rs, r.granted = true ∧ r.slept = cfg.min_delay := by
  intro n
  induction n with
  | zero =>
    intro s now _ _ _ _ _ _
    exact ⟨s, now, [], rfl, rfl, by simp⟩
  | succ k ih =>
    intro s now hcfg htok htmax hlr hm hh
    have hrps' : 0 ≤ s.config.requests_per_second := by rw [hcfg]; exact hrps
    have hmd' : 0 ≤ s.config.min_delay := by rw [hcfg]; exact hmd
    have htokq : (k : ℚ) + 1 ≤ s.tokens := by push_cast at htok; linarith
    have h1 : 1 ≤ s.tokens := by
      have hk0 : (0:ℚ) ≤ (k:ℚ) := Nat.cast_nonneg k
      linarith
    have hm1 : s.requests_minute.length < s.config.requests_per_minute := by rw [hcfg]; omega
    have hh1 : s.requests_hour.length < s.config.requests_per_hour := by rw [hcfg]; omega
    obtain ⟨s', hacq, hscfg, hsmax, htlb, htub, hlrf, hlm, hlh⟩ :=
      burst_step s now hrps' hmd' h1 htmax hlr hm1 hh1
    obtain ⟨s'', t'', rs, hseq, hlen, hall⟩ := ih s' (now + cfg.min_delay)
      (hscfg.trans hcfg)
      (by linarith [htlb])
      htub
      (le_of_eq (by rw [hlrf, hcfg]))
      (by omega)
      (by omega)
    rw [show s.config.min_delay = cfg.min_delay from by rw [hcfg]] at hacq
    refine ⟨s'', t'', ⟨true, s', cfg.min_delay⟩ :: rs, ?_, by simp [hlen], ?_⟩
    · rw [acquireSeq_succ, hacq]
      dsimp only
      rw [hseq]
    · intro r hr
      rcases List.mem_cons.mp hr with rfl | hr'
      · exact ⟨rfl, rfl⟩
      · exact hall r hr'

/-- Claim C8 as amended: for every configuration with `burstSize ≥ 1`,
non-negative rate and delay floor, a freshly constructed limiter starts
with `tokens = burstSize`, and every sequence of `n` immediately
consecutive blocking acquire calls with `n ≤ burstSize`, `n ≤
requestsPerMinute` and `n ≤ requestsPerHour` returns `true` for all `n`
calls, each waiting only the `minDelay` floor. -/
theorem burst_absorption (cfg : RateLimitConfig) (t0 : ℚ) (n : ℕ)
    (hrps : 0 ≤ cfg.requests_per_second) (hmd : 0 ≤ cfg.min_delay)
    (hb : 1 ≤ cfg.burst_size) (hn : n ≤ cfg.burst_size)
    (hm : n ≤ cfg.requests_per_minute) (hh : n ≤ cfg.requests_per_hour) :
    (RateLimiter.init cfg t0).tokens = (cfg.burst_size : ℚ) ∧
    ∃ s' t' rs, acquireSeq (RateLimiter.init cfg t0) t0 n = .ok (s', t', rs) ∧
      rs.length = n ∧ ∀ r ∈ rs, r.granted = true ∧ r.slept = cfg.min_delay := by
  refine ⟨rfl, ?_⟩
  refine acquireSeq_burst cfg hrps hmd n (RateLimiter.init cfg t0) t0 rfl ?_ ?_ ?_ ?_ ?_
  · show (n : ℚ) ≤ (cfg.burst_size : ℚ)
    exact_mod_cast hn
  · exact le_refl _
  · exact le_refl _
  · show ([] : List ℚ).length + n ≤ cfg.requests_per_minute
    simpa using hm
  · show ([] : List ℚ).length + n ≤ cfg.requests_per_hour
    simpa using hh

/-- Counterexample config for C8: `burstSize = 2` but
`requestsPerMinute = 1`. -/
def burstDemoConfig : RateLimitConfig := ⟨1, 1, 1000, 2, 1/10⟩

/-- The limiter state after the first of the two demo calls. -/
def burstDemoMid : RateLimiter :=
  { config := burstDemoConfig, tokens := 1, max_tokens := 2, last_refill := 1/10,
    requests_minute := [1/10], requests_hour := [1/10], total_requests := 1,
    total_wait_time := 1/10, rejections := 0 }

/-- The limiter state after the second of the two demo calls. -/
def burstDemoEnd : RateLimiter :=
  { config := burstDemoConfig, tokens := 1, max_tokens := 2, last_refill := 601/10,
    requests_minute := [601/10], requests_hour := [1/10, 601/10], total_requests := 2,
    total_wait_time := 601/10, rejections := 0 }

/-- Counterexample to C8 as stated: with `burstSize = 2` but
`requestsPerMinute = 1`, the sequence of `n = 2 ≤ burstSize` immediately
consecutive blocking calls has its second call wait 60 s (the saturated
minute window), not the `0.1` s `minDelay` floor. -/
theorem burst_second_call_waits_sixty :
    (acquireSeq (RateLimiter.init burstDemoConfig 0) 0 2).map
      (fun x => x.2.2.map (fun r => (r.granted, r.slept))) =
      .ok [(true, 1/10), (true, 60)] ∧
    (60 : ℚ) ≠ 1/10 ∧ 2 ≤ burstDemoConfig.burst_size := by
  have hA1 : RateLimiter.acquire (RateLimiter.init burstDemoConfig 0) 0 true =
      .ok ⟨true, burstDemoMid, 1/10⟩ := by
    have hd : decisionState (RateLimiter.init burstDemoConfig 0) 0 =
        RateLimiter.init burstDemoConfig 0 := by
      norm_num [decisionState, clean_old_requests, refill_tokens, cleanWindow,
        RateLimiter.init, burstDemoConfig, pymin]
    have hc : calculate_wait_time (RateLimiter.init burstDemoConfig 0) 0 = .ok (1/10) := by
      norm_num [calculate_wait_time, tokenCheck, windowCheck, RateLimiter.init,
        burstDemoConfig, pymax]
    unfold RateLimiter.acquire
    rw [hd]
    simp only [hc]
    norm_num [recordRequest, refill_tokens, dequeAppend, burstDemoMid,
      burstDemoConfig, RateLimiter.init, pymin]
  have hA2 : RateLimiter.acquire burstDemoMid (1/10) true = .ok ⟨true, burstDemoEnd, 60⟩ := by
    have hd : decisionState burstDemoMid (1/10) = burstDemoMid := by
      norm_num [decisionState, clean_old_requests, refill_tokens, cleanWindow,
        burstDemoMid, burstDemoConfig, pymin]
    have hc : calculate_wait_time burstDemoMid (1/10) = .ok 60 := by
      norm_num [calculate_wait_time, tokenCheck, windowCheck, burstDemoMid,
        burstDemoConfig, pymax]
    unfold RateLimiter.acquire
    rw [hd]
    simp only [hc]
    norm_num [recordRequest, refill_tokens, dequeAppend, burstDemoEnd, burstDemoMid,
      burstDemoConfig, pymin]
  refine ⟨?_, by norm_num, by norm_num [burstDemoConfig]⟩
  have hs : acquireSeq (RateLimiter.init burstDemoConfig 0) 0 2 =
      .ok (burstDemoEnd, 1/10 + 60, [⟨true, burstDemoMid, 1/10⟩, ⟨true, burstDemoEnd, 60⟩]) := by
    rw [show (2:ℕ) = 1 + 1 from rfl, acquireSeq_succ, hA1]
    dsimp only
    rw [show (0:ℚ) + 1/10 = 1/10 by norm_num, acquireSeq_succ, hA2]
    dsimp only
    rw [acquireSeq_zero]
  rw [hs]
  norm_num [Except.map]

/-- Witness for the amended C8: two consecutive blocking calls on a fresh
default limiter (burst 5, minute cap 60, hour cap 1000) all succeed with
`0.1` s waits. -/
theorem burst_absorption_witness :
    (RateLimiter.init defaultRateLimitConfig 0).tokens =
      (defaultRateLimitConfig.burst_size : ℚ) ∧
    ∃ s' t' rs, acquireSeq (RateLimiter.init defaultRateLimitConfig 0) 0 2 = .ok (s', t', rs) ∧
      rs.length = 2 ∧ ∀ r ∈ rs, r.granted = true ∧ r.slept = defaultRateLimitConfig.min_delay :=
  burst_absorption defaultRateLimitConfig 0 2
    (by norm_num [defaultRateLimitConfig]) (by norm_num [defaultRateLimitConfig])
    (by norm_num [defaultRateLimitConfig]) (by norm_num [defaultRateLimitConfig])
    (by norm_num [defaultRateLimitConfig]) (by norm_num [defaultRateLimitConfig])

/-
Association-list lemmas for the registry's limiter dict.
-/

lemma lookupKey_eq_none_iff (k : List Char) (l : List (List Char × RateLimiter)) :
    lookupKey k l = none ↔ k ∉ l.map Prod.fst := by
  induction l with
  | nil => simp [lookupKey]
  | cons p rest ih =>
    obtain ⟨k', v⟩ := p
    rw [lookupKey, List.map_cons]
    by_cases h : k' = k
    · subst h
      rw [if_pos rfl]
      exact ⟨fun hx => Option.noConfusion hx, fun hx => absurd (List.mem_cons_self _ _) hx⟩
    · rw [if_neg h, ih]
      constructor
      · intro h1 hx
        rcases List.mem_cons.mp hx with heq | hm
        · exact h heq.symm
        · exact h1 hm
      · intro h1 hm
        exact h1 (List.mem_cons_of_mem _ hm)

lemma lookupKey_append_single_self (k : List Char) (v : RateLimiter)
    (l : List (List Char × RateLimiter)) (h : lookupKey k l = none) :
    lookupKey k (l ++ [(k, v)]) = some v := by
  induction l with
  | nil => simp [lookupKey]
  | cons p rest ih =>
    obtain ⟨k', v'⟩ := p
    rw [lookupKey] at h
    by_cases hk : k' = k
    · rw [if_pos hk] at h; cases h
    · rw [if_neg hk] at h
      simpa [lookupKey, hk] using ih h

lemma lookupKey_append_single_other (k q : List Char) (v : RateLimiter)
    (l : List (List Char × RateLimiter)) (h : q ≠ k) :
    lookupKey q (l ++ [(k, v)]) = lookupKey q l := by
  induction l with
  | nil => simp [lookupKey, Ne.symm h]
  | cons p rest ih =>
    obtain ⟨k', v'⟩ := p
    by_cases hk : k' = q
    · simp [lookupKey, hk]
    · simp [lookupKey, hk, ih]

lemma upsert_lookup_self (k : List Char) (v : RateLimiter)
    (l : List (List Char × RateLimiter)) :
    lookupKey k (upsert k v l) = some v := by
  induction l with
  | nil => simp [upsert, lookupKey]
  | cons p rest ih =>
    obtain ⟨k', v'⟩ := p
    by_cases h : k' = k
    · subst h
      simp [upsert, lookupKey]
    · simp [upsert, lookupKey, h, ih]

lemma upsert_lookup_other (k q : List Char) (v : RateLimiter)
    (l : List (List Char × RateLimiter)) (h : q ≠ k) :
    lookupKey q (upsert k v l) = lookupKey q l := by
  induction l with
  | nil =>
    show (if k = q then some v else lookupKey q []) = lookupKey q []
    rw [if_neg (fun hx : k = q => h hx.symm)]
  | cons p rest ih =>
    obtain ⟨k', v'⟩ := p
    show lookupKey q (if k' = k then (k, v) :: rest else (k', v') :: upsert k v rest) =
      lookupKey q ((k', v') :: rest)
    by_cases hk : k' = k
    · rw [if_pos hk, lookupKey, lookupKey, if_neg (fun hx : k = q => h hx.symm),
        if_neg (fun hx : k' = q => h (hx ▸ hk))]
    · rw [if_neg hk, lookupKey, lookupKey]
      by_cases hq : k' = q
      · rw [if_pos hq, if_pos hq]
      · rw [if_neg hq, if_neg hq, ih]

lemma upsert_map_fst_of_mem (k : List Char) (v : RateLimiter)
    (l : List (List Char × RateLimiter)) (h : k ∈ l.map Prod.fst) :
    (upsert k v l).map Prod.fst = l.map Prod.fst := by
  induction l with
  | nil => simp at h
  | cons p rest ih =>
    obtain ⟨k', v'⟩ := p
    by_cases hk : k' = k
    · subst hk
      simp [upsert]
    · rw [List.map_cons] at h
      rcases List.mem_cons.mp h with h1 | h1

      · exact absurd h1.symm hk
      · simp [upsert, hk, ih h1]

lemma lookupKey_single_self (k : List Char) (v : RateLimiter) :
    lookupKey k [(k, v)] = some v := by
  show (if k = k then some v else lookupKey k []) = some v
  rw [if_pos rfl]

lemma upsert_single_self (k : List Char) (v w : RateLimiter) :
    upsert k v [(k, w)] = [(k, v)] := by
  show (if k = k then (k, v) :: [] else (k, w) :: upsert k v []) = [(k, v)]
  rw [if_pos rfl]

lemma mem_keys_of_lookupKey_some (k : List Char) (lim : RateLimiter)
    (l : List (List Char × RateLimiter)) (h : lookupKey k l = some lim) :
    k ∈ l.map Prod.fst := by
  by_contra hx
  rw [← lookupKey_eq_none_iff] at hx
  rw [h] at hx
  cases hx

/-
Claim C7.
-/

/-- Claim C7: a registry acquire dispatched to domain `d` leaves the
per-key structure intact — the key list stays duplicate-free, every key
other than `d` maps to the exact same limiter as before, and `d` maps to
the result of running the one acquire on `d`'s limiter: the existing one
when `d` was already known, or a limiter freshly constructed from the
default config on first use.  In particular an admission under one key
never changes the state of another key's limiter. -/
theorem registry_one_limiter_per_key (r : DomainRateLimiter) (url : List Char)
    (w : Bool) (now : ℚ) (d : List Char) (b : Bool) (r' : DomainRateLimiter)
    (hd : get_domain url = .ok d)
    (hacq : DomainRateLimiter.acquire r url w now = .ok (b, r'))
    (hnodup : (r.limiters.map Prod.fst).Nodup) :
    (r'.limiters.map Prod.fst).Nodup ∧
    r'.default_config = r.default_config ∧
    (∀ k, k ≠ d → lookupKey k r'.limiters = lookupKey k r.limiters) ∧
    (lookupKey d r.limiters = none →
      ∃ res : AcquireResult,
        RateLimiter.acquire (RateLimiter.init r.default_config now) now w = .ok res ∧
        res.granted = b ∧ lookupKey d r'.limiters = some res.state) ∧
    (∀ lim, lookupKey d r.limiters = some lim →
      ∃ res : AcquireResult,
        RateLimiter.acquire lim now w = .ok res ∧
        res.granted = b ∧ lookupKey d r'.limiters = some res.state) := by
  unfold DomainRateLimiter.acquire at hacq
  rw [hd] at hacq
  dsimp only at hacq
  cases hlk : lookupKey d r.limiters with
  | none =>
    rw [hlk] at hacq
    dsimp only at hacq
    have hnd : d ∉ r.limiters.map Prod.fst := (lookupKey_eq_none_iff d r.limiters).mp hlk
    have hlk1 : lookupKey d (r.limiters ++ [(d, RateLimiter.init r.default_config now)]) =
        some (RateLimiter.init r.default_config now) :=
      lookupKey_append_single_self _ _ _ hlk
    rw [hlk1] at hacq
    dsimp only at hacq
    cases hra : RateLimiter.acquire (RateLimiter.init r.default_config now) now w with
    | error e => rw [hra] at hacq; cases hacq
    | ok res =>
      rw [hra] at hacq
      dsimp only at hacq
      injection hacq with hacq
      injection hacq with h1 h2
      subst h1
      subst h2
      have hmem : d ∈ (r.limiters ++ [(d, RateLimiter.init r.default_config now)]).map Prod.fst := by
        rw [List.map_append]
        exact List.mem_append_right _ (List.mem_singleton.mpr rfl)
      refine ⟨?_, rfl, ?_, ?_, ?_⟩
      · show ((upsert d res.state
            (r.limiters ++ [(d, RateLimiter.init r.default_config now)])).map Prod.fst).Nodup
        rw [upsert_map_fst_of_mem _ _ _ hmem, List.map_append]
        refine List.Nodup.append hnodup (List.nodup_singleton _) ?_
        intro a ha hb
        simp only [List.map_cons, List.map_nil, List.mem_singleton] at hb
        subst hb
        exact hnd ha
      · intro k hk
        show lookupKey k (upsert d res.state
            (r.limiters ++ [(d, RateLimiter.init r.default_config now)])) =
          lookupKey k r.limiters
        rw [upsert_lookup_other _ _ _ _ hk, lookupKey_append_single_other _ _ _ _ hk]
      · intro _
        exact ⟨res, rfl, rfl, upsert_lookup_self _ _ _⟩
      · intro lim hl
        cases hl
  | some lim =>
    rw [hlk] at hacq
    dsimp only at hacq
    rw [hlk] at hacq
    dsimp only at hacq
    cases hra : RateLimiter.acquire lim now w with
    | error e => rw [hra] at hacq; cases hacq
    | ok res =>
      rw [hra] at hacq
      dsimp only at hacq
      injection hacq with hacq
      injection hacq with h1 h2
      subst h1
      subst h2
      have hmem : d ∈ r.limiters.map Prod.fst := mem_keys_of_lookupKey_some _ _ _ hlk
      refine ⟨?_, rfl, ?_, ?_, ?_⟩
      · show ((upsert d res.state r.limiters).map Prod.fst).Nodup
        rw [upsert_map_fst_of_mem _ _ _ hmem]
        exact hnodup
      · intro k hk
        show lookupKey k (upsert d res.state r.limiters) = lookupKey k r.limiters
        rw [upsert_lookup_other _ _ _ _ hk]
      · intro h0
        cases h0
      · intro lim' hl
        injection hl with hl
        subst hl
        exact ⟨res, hra, rfl, upsert_lookup_self _ _ _⟩

/-- The limiter state after the first blocking acquire on a fresh
default-config limiter at time 0. -/
def afterFirstDefaultAcquire : RateLimiter :=
  { config := defaultRateLimitConfig, tokens := 4, max_tokens := 5, last_refill := 1/10,
    requests_minute := [1/10], requests_hour := [1/10], total_requests := 1,
    total_wait_time := 1/10, rejections := 0 }

lemma default_first_acquire_eval :
    RateLimiter.acquire (RateLimiter.init defaultRateLimitConfig 0) 0 true =
      .ok ⟨true, afterFirstDefaultAcquire, 1/10⟩ := by
  have hd : decisionState (RateLimiter.init defaultRateLimitConfig 0) 0 =
      RateLimiter.init defaultRateLimitConfig 0 := by
    norm_num [decisionState, clean_old_requests, refill_tokens, cleanWindow,
      RateLimiter.init, defaultRateLimitConfig, pymin]
  have hc : calculate_wait_time (RateLimiter.init defaultRateLimitConfig 0) 0 = .ok (1/10) := by
    norm_num [calculate_wait_time, tokenCheck, windowCheck, RateLimiter.init,
      defaultRateLimitConfig, pymax]
  unfold RateLimiter.acquire
  rw [hd]
  simp only [hc]
  norm_num [recordRequest, refill_tokens, dequeAppend, afterFirstDefaultAcquire,
    defaultRateLimitConfig, RateLimiter.init, pymin]

lemma registry_first_acquire_eval :
    DomainRateLimiter.acquire ⟨defaultRateLimitConfig, []⟩ "http://a.com/x".toList true 0 =
      .ok (true, ⟨defaultRateLimitConfig, [("a.com".toList, afterFirstDefaultAcquire)]⟩) := by
  unfold DomainRateLimiter.acquire
  rw [show get_domain "http://a.com/x".toList = .ok "a.com".toList from by decide]
  dsimp only
  rw [show lookupKey "a.com".toList ([] : List (List Char × RateLimiter)) = none from rfl]
  dsimp only
  simp only [List.nil_append]
  rw [lookupKey_single_self]
  dsimp only
  rw [default_first_acquire_eval]
  dsimp only
  rw [upsert_single_self]

/-- Witness for C7: acquiring `http://a.com/x` on an empty default registry
creates exactly one limiter entry, keyed `a.com`, and the key list stays
duplicate-free. -/
theorem registry_one_limiter_per_key_witness :
    ((DomainRateLimiter.mk defaultRateLimitConfig
      [("a.com".toList, afterFirstDefaultAcquire)]).limiters.map Prod.fst).Nodup :=
  (registry_one_limiter_per_key ⟨defaultRateLimitConfig, []⟩ "http://a.com/x".toList true 0
    "a.com".toList true ⟨defaultRateLimitConfig, [("a.com".toList, afterFirstDefaultAcquire)]⟩
    (by decide) registry_first_acquire_eval (by simp)).1

/-
Claim C4 (corrected).
-/

/-- Counterexample config for C4: one burst token and no delay floor, so a
fresh limiter admits instantly and a second instant call is rejected. -/
def sharedBudgetConfig : RateLimitConfig := ⟨1, 60, 1000, 1, 0⟩

/-- The `a.com` limiter after its budget of one token was spent at time 0. -/
def sharedBudgetUsed : RateLimiter :=
  { config := sharedBudgetConfig, tokens := 0, max_tokens := 1, last_refill := 0,
    requests_minute := [0], requests_hour := [0], total_requests := 1,
    total_wait_time := 0, rejections := 0 }

lemma shared_first_acquire_eval (w : Bool) :
    RateLimiter.acquire (RateLimiter.init sharedBudgetConfig 0) 0 w =
      .ok ⟨true, sharedBudgetUsed, 0⟩ := by
  have hd : decisionState (RateLimiter.init sharedBudgetConfig 0) 0 =
      RateLimiter.init sharedBudgetConfig 0 := by
    norm_num [decisionState, clean_old_requests, refill_tokens, cleanWindow,
      RateLimiter.init, sharedBudgetConfig, pymin]
  have hc : calculate_wait_time (RateLimiter.init sharedBudgetConfig 0) 0 = .ok 0 := by
    norm_num [calculate_wait_time, tokenCheck, windowCheck, RateLimiter.init,
      sharedBudgetConfig, pymax]
  unfold RateLimiter.acquire
  rw [hd]
  simp only [hc]
  norm_num [recordRequest, dequeAppend, sharedBudgetUsed, sharedBudgetConfig,
    RateLimiter.init]

lemma shared_second_acquire_eval :
    RateLimiter.acquire sharedBudgetUsed 0 false =
      .ok ⟨false, { sharedBudgetUsed with rejections := 1 }, 0⟩ := by
  have hd : decisionState sharedBudgetUsed 0 = sharedBudgetUsed := by
    norm_num [decisionState, clean_old_requests, refill_tokens, cleanWindow,
      sharedBudgetUsed, sharedBudgetConfig, pymin]
  have hc : calculate_wait_time sharedBudgetUsed 0 = .ok 1 := by
    norm_num [calculate_wait_time, tokenCheck, windowCheck, sharedBudgetUsed,
      sharedBudgetConfig, pymax]
  unfold RateLimiter.acquire
  rw [hd]
  simp only [hc]
  norm_num [sharedBudgetUsed]

lemma shared_registry_first_eval :
    DomainRateLimiter.acquire ⟨sharedBudgetConfig, []⟩ "http://a.com/x".toList true 0 =
      .ok (true, ⟨sharedBudgetConfig, [("a.com".toList, sharedBudgetUsed)]⟩) := by
  unfold DomainRateLimiter.acquire
  rw [show get_domain "http://a.com/x".toList = .ok "a.com".toList from by decide]
  dsimp only
  rw [show lookupKey "a.com".toList ([] : List (List Char × RateLimiter)) = none from rfl]
  dsimp only
  simp only [List.nil_append]
  rw [lookupKey_single_self]
  dsimp only
  rw [shared_first_acquire_eval]
  dsimp only
  rw [upsert_single_self]

lemma shared_registry_second_eval :
    DomainRateLimiter.acquire ⟨sharedBudgetConfig, [("a.com".toList, sharedBudgetUsed)]⟩
      "http://a.com/y".toList false 0 =
      .ok (false, ⟨sharedBudgetConfig,
        [("a.com".toList, { sharedBudgetUsed with rejections := 1 })]⟩) := by
  unfold DomainRateLimiter.acquire
  rw [show get_domain "http://a.com/y".toList = .ok "a.com".toList from by decide]
  dsimp only
  rw [lookupKey_single_self]
  dsimp only
  rw [lookupKey_single_self]
  dsimp only
  rw [shared_second_acquire_eval]
  dsimp only
  rw [upsert_single_self]

/-- Counterexample to C4 as stated: the distinct URL strings
`http://a.com/x` and `http://a.com/y` are routed to the same limiter
instance, not distinct ones — the first call spends the key's single burst
token and the second call is rejected, while a fresh (distinct) limiter
would have admitted it. -/
theorem distinct_urls_share_limiter :
    "http://a.com/x".toList ≠ "http://a.com/y".toList ∧
    DomainRateLimiter.acquire ⟨sharedBudgetConfig, []⟩ "http://a.com/x".toList true 0 =
      .ok (true, ⟨sharedBudgetConfig, [("a.com".toList, sharedBudgetUsed)]⟩) ∧
    DomainRateLimiter.acquire ⟨sharedBudgetConfig, [("a.com".toList, sharedBudgetUsed)]⟩
      "http://a.com/y".toList false 0 =
      .ok (false, ⟨sharedBudgetConfig,
        [("a.com".toList, { sharedBudgetUsed with rejections := 1 })]⟩) ∧
    RateLimiter.acquire (RateLimiter.init sharedBudgetConfig 0) 0 false =
      .ok ⟨true, sharedBudgetUsed, 0⟩ :=
  ⟨by decide, shared_registry_first_eval, shared_registry_second_eval,
   shared_first_acquire_eval false⟩

/-- Claim C4 as amended: the registry does parse — it derives the partition
key from the URL via `urlparse(url).netloc` and dispatches by that key:
two calls whose URLs have the same netloc produce identical acquire
behaviour on any registry state, and a call whose URL has a different
netloc leaves the other netloc's limiter entry untouched. -/
theorem registry_routes_by_netloc (r : DomainRateLimiter) (u1 u2 : List Char)
    (w : Bool) (now : ℚ) (d1 d2 : List Char)
    (h1 : get_domain u1 = .ok d1) (h2 : get_domain u2 = .ok d2) :
    (d1 = d2 → DomainRateLimiter.acquire r u1 w now = DomainRateLimiter.acquire r u2 w now) ∧
    (d1 ≠ d2 → ∀ b r', DomainRateLimiter.acquire r u1 w now = .ok (b, r') →
      lookupKey d2 r'.limiters = lookupKey d2 r.limiters) := by
  constructor
  · intro heq
    unfold DomainRateLimiter.acquire
    rw [h1, h2, heq]
  · intro hne b r' hacq
    unfold DomainRateLimiter.acquire at hacq
    rw [h1] at hacq
    dsimp only at hacq
    cases hlk : lookupKey d1 r.limiters with
    | none =>
      rw [hlk] at hacq
      dsimp only at hacq
      rw [lookupKey_append_single_self _ _ _ hlk] at hacq
      dsimp only at hacq
      cases hra : RateLimiter.acquire (RateLimiter.init r.default_config now) now w with
      | error e => rw [hra] at hacq; cases hacq
      | ok res =>
        rw [hra] at hacq
        dsimp only at hacq
        injection hacq with hacq
        injection hacq with hb hr
        subst hr
        show lookupKey d2 (upsert d1 res.state
            (r.limiters ++ [(d1, RateLimiter.init r.default_config now)])) =
          lookupKey d2 r.limiters
        rw [upsert_lookup_other _ _ _ _ (Ne.symm hne),
          lookupKey_append_single_other _ _ _ _ (Ne.symm hne)]
    | some lim =>
      rw [hlk] at hacq
      dsimp only at hacq
      rw [hlk] at hacq
      dsimp only at hacq
      cases hra : RateLimiter.acquire lim now w with
      | error e => rw [hra] at hacq; cases hacq
      | ok res =>
        rw [hra] at hacq
        dsimp only at hacq
        injection hacq with hacq
        injection hacq with hb hr
        subst hr
        show lookupKey d2 (upsert d1 res.state r.limiters) = lookupKey d2 r.limiters
        rw [upsert_lookup_other _ _ _ _ (Ne.symm hne)]

/-- Witness for the amended C4: `http://a.com/x` and `https://a.com/y?q=1`
have the same netloc `a.com`, so acquiring either on an empty default
registry behaves identically. -/
theorem registry_routes_by_netloc_witness :
    DomainRateLimiter.acquire ⟨defaultRateLimitConfig, []⟩ "http://a.com/x".toList true 0 =
      DomainRateLimiter.acquire ⟨defaultRateLimitConfig, []⟩ "https://a.com/y?q=1".toList true 0 :=
  (registry_routes_by_netloc ⟨defaultRateLimitConfig, []⟩ _ _ true 0
    "a.com".toList "a.com".toList (by decide) (by decide)).1 rfl

/-
Claim C10 (corrected).
-/

/-- Counterexample to C10 as stated: `//example.com/page` has no scheme
(the scheme splitter leaves it unchanged), yet its netloc is
`example.com`, not the empty string. -/
theorem schemeless_protocol_relative_url_has_netloc :
    splitScheme (sanitizeUrl "//example.com/page".toList) =
      sanitizeUrl "//example.com/page".toList ∧
    get_domain "//example.com/page".toList = .ok "example.com".toList ∧
    "example.com".toList ≠ ([] : List Char) :=
  ⟨by decide, by decide, by decide⟩

/-- Claim C10 as amended: every URL whose remainder after scheme removal
does not begin with `//` — in particular every scheme-less URL not starting
with `//`, such as `example.com/page` — yields the empty netloc and is
therefore routed to the single limiter keyed by the empty string; and any
two URLs with equal netloc are handled by one limiter and one budget,
regardless of path or query: registry acquire behaves identically on
them. -/
theorem schemeless_url_routing :
    (∀ u : List Char, splitScheme (sanitizeUrl u) = sanitizeUrl u →
      (sanitizeUrl u).take 2 ≠ ['/', '/'] → get_domain u = .ok []) ∧
    (∀ (r : DomainRateLimiter) (u1 u2 : List Char) (w : Bool) (now : ℚ),
      get_domain u1 = get_domain u2 →
      DomainRateLimiter.acquire r u1 w now = DomainRateLimiter.acquire r u2 w now) := by
  constructor
  · intro u hs hn
    unfold get_domain urlparse_netloc
    rw [hs, if_neg hn]
  · intro r u1 u2 w now h
    unfold DomainRateLimiter.acquire
    rw [h]

/-- Witness for the amended C10: `example.com/page` maps to the empty
netloc, and two URLs sharing the netloc `a.com` behave identically on an
empty default registry. -/
theorem schemeless_url_routing_witness :
    get_domain "example.com/page".toList = .ok [] ∧
    DomainRateLimiter.acquire ⟨defaultRateLimitConfig, []⟩ "http://a.com/x".toList false 0 =
      DomainRateLimiter.acquire ⟨defaultRateLimitConfig, []⟩ "http://a.com/about".toList false 0 :=
  ⟨schemeless_url_routing.1 "example.com/page".toList (by decide) (by decide),
   schemeless_url_routing.2 ⟨defaultRateLimitConfig, []⟩ _ _ false 0 (by decide)⟩

end RateSpec
